import Mathlib

/-!
# Verification of the rich-text population & conversion engine

This file embeds, in Lean 4, the data model and operations of the
repository's rich-text population and HTML-conversion engine:

* a shallow embedding of the serialized editor tree (`LNode`, `FieldVal`,
  `RefValue`) following the serialized JSON shape of section 6 of the spec
  and the node shapes exercised by `test/fields/lexical.int.spec.ts` and
  `test/relationships/int.spec.ts`;
* the depth-limited population engine (`popNode`, `popField`, `populate`);
  the engine's implementation file is not part of the provided sources, so
  it is modelled from the spec's algorithm (section 4.1), with its
  observable behaviour cross-checked against the integration tests that are
  part of the sources;
* the HTML-converter consolidation and the `lexicalHTML` derived field from
  `packages/richtext-lexical/src/field/features/converters/html/field/index.ts`,
  which is part of the provided sources and is embedded statement by
  statement (the mutable module-level `defaultHTMLConverters` array is made
  explicit as threaded state).
-/

namespace Payload

/-! ## Tree model

Serialized tree shape (spec section 6): `Node = { type, children?, ... }`;
reference-kind nodes carry `value` (bare id or hydrated object) and
`relationTo`; block-kind nodes carry `fields`, a map whose entries may be
primitives, nested Editor States, or reference payloads.  A hydrated
document snapshot is a mapping of field name to value, itself possibly
containing further Editor States and relation fields. -/

mutual

/-- A node of the serialized rich-text tree, tagged by `kind`. -/
inductive LNode where
  /-- A text run leaf. -/
  | text (s : String)
  /-- A generic container node (paragraph, heading, quote, ...). -/
  | elem (kind : String) (children : NodeList)
  /-- A reference node (relationship/upload): `relationTo` names the target
  collection, `id` the target document, `value` the value slot. -/
  | rel (relationTo : String) (id : Nat) (value : RefValue)
  /-- A block node: a `blockType` tag plus a field-value map. -/
  | block (blockType : String) (fields : FieldList)

/-- An ordered sequence of child nodes. -/
inductive NodeList where
  | nil
  | cons (hd : LNode) (tl : NodeList)

/-- The `value` slot of a reference payload: either the bare target id
(represented by `idOnly`, the id itself being kept next to the slot), or a
hydrated document snapshot. -/
inductive RefValue where
  | idOnly
  | hydrated (doc : FieldList)

/-- A document field map: field name to field value. -/
inductive FieldList where
  | nil
  | cons (name : String) (val : FieldVal) (tl : FieldList)

/-- A field value inside a block's field map or a document snapshot:
a primitive, a nested Editor State (rich-text sub-tree), or a relation
field (with its per-field `maxDepth` cap from the field declaration). -/
inductive FieldVal where
  | prim (s : String)
  | richText (root : LNode)
  | relation (relationTo : String) (id : Nat) (maxDepth : Option Nat) (value : RefValue)

end

/-- An Editor State: root node plus version metadata (spec section 3). -/
structure EditorState where
  root : LNode
  version : Nat

/-! ## Document Store collaborator (spec section 6)

`fetch(collection, id, accessContext) -> Document | NotFound | AccessDenied`,
with a store-level I/O failure as a fourth, fatal outcome (spec section 7). -/

/-- Result of a Document Store fetch. -/
inductive FetchResult where
  | found (doc : FieldList)
  | notFound
  | accessDenied
  | ioError

/-- The Document Store: fetch by collection name and id. -/
def Store : Type := String → Nat → FetchResult

/-- The only fatal population error: a store-level I/O failure. -/
inductive PopError where
  | ioError
deriving DecidableEq, Repr

/-! ## Population Engine

Modelled from the spec: the population engine's implementation file is not
among the provided sources (only its integration tests are), so the
populate functions below are modelled from the algorithm of spec section
4.1, cross-checked against `test/fields/lexical.int.spec.ts`
("advanced - blocks") and `test/relationships/int.spec.ts` ("depth"):

* at a reference with remaining depth 0, the `value` slot becomes the bare
  id, discarding any prior hydration;
* with remaining depth `d + 1`, the target is fetched; on success the
  fetched document's fields are populated at remaining depth `d` (a
  cross-document hop consumes exactly one unit); `NotFound`/`AccessDenied`
  degrade the single reference to id-only; a store I/O failure is fatal
  for the whole call;
* a block node's field map, and any nested Editor State held in it, are
  walked at the *same* remaining depth (same-document traversal is free);
* a relation field applies its declared `maxDepth` cap: its effective
  depth is `min remaining cap`.

The engine is split, to keep every recursion structural (and hence kernel
computable), into a tree walker `walkNode`/`walkNodes`/`walkFields`/
`walkField` parameterized by a hydration oracle, and the oracle family
`hydFam` indexed by the depth budget; `popNode` etc. tie the two together,
and the lemmas `hydrate_zero`, `hydrate_succ` and `popField_relation`
below restate the resulting one-step behaviour in exactly the spec's
terms. -/

/-- Effective depth of a reference resolution:
`min(requestedDepth, fieldMaxDepth)` when the field declares a cap
(spec section 4.1). -/
def effectiveDepth (requestedDepth : Nat) (fieldMaxDepth : Option Nat) : Nat :=
  match fieldMaxDepth with
  | none => requestedDepth
  | some m => min requestedDepth m

/-- A hydration oracle: `h k relationTo id` is the value a reference to
document `id` of collection `relationTo` resolves to when hopped with
remaining depth budget `k`. -/
def Hyd : Type := Nat → String → Nat → Except PopError RefValue

mutual

/-- Walk one node at remaining depth `d`, resolving references through the
oracle `h`; child lists, block field maps and nested Editor States are
walked at the same `d`. -/
def walkNode (h : Hyd) (d : Nat) : LNode → Except PopError LNode
  | .text s => .ok (.text s)
  | .elem kind children => do
      let children' ← walkNodes h d children
      .ok (.elem kind children')
  | .rel relationTo id _value => do
      let value' ← h d relationTo id
      .ok (.rel relationTo id value')
  | .block blockType fields => do
      let fields' ← walkFields h d fields
      .ok (.block blockType fields')

/-- Walk a child list at remaining depth `d`, preserving order. -/
def walkNodes (h : Hyd) (d : Nat) : NodeList → Except PopError NodeList
  | .nil => .ok .nil
  | .cons hd tl => do
      let hd' ← walkNode h d hd
      let tl' ← walkNodes h d tl
      .ok (.cons hd' tl')

/-- Walk a field map at remaining depth `d`; each field is walked
independently of the others. -/
def walkFields (h : Hyd) (d : Nat) : FieldList → Except PopError FieldList
  | .nil => .ok .nil
  | .cons name val tl => do
      let val' ← walkField h d val
      let tl' ← walkFields h d tl
      .ok (.cons name val' tl')

/-- Walk one field value at remaining depth `d`; a relation field resolves
through the oracle at its effective depth `min d maxDepth`. -/
def walkField (h : Hyd) (d : Nat) : FieldVal → Except PopError FieldVal
  | .prim s => .ok (.prim s)
  | .richText root => do
      let root' ← walkNode h d root
      .ok (.richText root')
  | .relation relationTo id maxDepth _value => do
      let value' ← h (effectiveDepth d maxDepth) relationTo id
      .ok (.relation relationTo id maxDepth value')

end

/-- The hydration oracle family of a store: `hydFam store N` is a valid
oracle for every budget `k ≤ N`.  Budget 0 resolves to the bare id without
fetching; budget `b + 1` fetches the target document and, on success,
walks its fields at remaining depth `b` (the cross-document hop consumes
exactly one unit); fetch failures degrade to id-only except the fatal
store I/O failure. -/
def hydFam (store : Store) : Nat → Hyd
  | 0 => fun _ _ _ => .ok .idOnly
  | b + 1 => fun k relationTo id =>
      if k ≤ b then hydFam store b k relationTo id
      else
        match store relationTo id with
        | .found doc => do
            let doc' ← walkFields (hydFam store b) b doc
            .ok (.hydrated doc')
        | .notFound => .ok .idOnly
        | .accessDenied => .ok .idOnly
        | .ioError => .error .ioError

/-- Resolve one reference against the store with remaining depth `k`. -/
def hydrate (store : Store) (k : Nat) (relationTo : String) (id : Nat) :
    Except PopError RefValue :=
  hydFam store k k relationTo id

/-- Populate one node at remaining depth `d`. -/
def popNode (store : Store) (d : Nat) (n : LNode) : Except PopError LNode :=
  walkNode (hydFam store d) d n

/-- Populate a child list at remaining depth `d`. -/
def popNodes (store : Store) (d : Nat) (l : NodeList) : Except PopError NodeList :=
  walkNodes (hydFam store d) d l

/-- Populate a document field map at remaining depth `d`. -/
def popFields (store : Store) (d : Nat) (fl : FieldList) : Except PopError FieldList :=
  walkFields (hydFam store d) d fl

/-- Populate one field value at remaining depth `d`. -/
def popField (store : Store) (d : Nat) (v : FieldVal) : Except PopError FieldVal :=
  walkField (hydFam store d) d v

/-- The contract `populate(state, requestedDepth, fieldMaxDepth) -> state'`
(spec section 4.1): walks the state's root at the effective depth
`min(requestedDepth, fieldMaxDepth)`. -/
def populate (store : Store) (requestedDepth : Nat) (fieldMaxDepth : Option Nat)
    (state : EditorState) : Except PopError EditorState := do
  let root' ← popNode store (effectiveDepth requestedDepth fieldMaxDepth) state.root
  .ok { root := root', version := state.version }

/-! ### One-step behaviour of the oracle, in the spec's terms -/

/-- The oracle family is stable: a family of level `N` answers any budget
`k ≤ N` exactly as the family of level `k` does. -/
theorem hydFam_stable (store : Store) :
    ∀ N k, k ≤ N → ∀ relationTo id,
      hydFam store N k relationTo id = hydrate store k relationTo id := by
  intro N
  induction N with
  | zero =>
      intro k hk relationTo id
      have : k = 0 := by omega
      subst this
      rfl
  | succ b ih =>
      intro k hk relationTo id
      by_cases hkb : k ≤ b
      · have h1 : hydFam store (b + 1) k relationTo id
            = hydFam store b k relationTo id := by
          simp [hydFam, hkb]
        rw [h1, ih k hkb]
      · have : k = b + 1 := by omega
        subst this
        rfl

/-- Remaining depth 0: the reference resolves to the bare id (any prior
hydration is discarded), with no store access at all. -/
theorem hydrate_zero (store : Store) (relationTo : String) (id : Nat) :
    hydrate store 0 relationTo id = .ok .idOnly := rfl

/-- Remaining depth `b + 1`: the target is fetched; on success its fields
are populated at remaining depth `b` (the hop consumes exactly one unit);
not-found and access-denied degrade to id-only; an I/O failure is fatal. -/
theorem hydrate_succ (store : Store) (b : Nat) (relationTo : String) (id : Nat) :
    hydrate store (b + 1) relationTo id
      = match store relationTo id with
        | .found doc => do
            let doc' ← popFields store b doc
            .ok (.hydrated doc')
        | .notFound => .ok .idOnly
        | .accessDenied => .ok .idOnly
        | .ioError => .error .ioError := by
  have hnb : ¬ (b + 1 ≤ b) := by omega
  simp only [hydrate, hydFam, hnb, if_false, popFields]

/-- A reference node resolves through `hydrate` at the full remaining
depth. -/
theorem popNode_rel (store : Store) (d : Nat) (relationTo : String) (id : Nat)
    (value : RefValue) :
    popNode store d (.rel relationTo id value) = (do
      let value' ← hydrate store d relationTo id
      .ok (.rel relationTo id value')) := rfl

/-- A relation field resolves through `hydrate` at its effective depth
`min d maxDepth`. -/
theorem popField_relation (store : Store) (d : Nat) (relationTo : String)
    (id : Nat) (maxDepth : Option Nat) (value : RefValue) :
    popField store d (.relation relationTo id maxDepth value) = (do
      let value' ← hydrate store (effectiveDepth d maxDepth) relationTo id
      .ok (.relation relationTo id maxDepth value')) := by
  have heff : effectiveDepth d maxDepth ≤ d := by
    cases maxDepth with
    | none => exact Nat.le_refl d
    | some m => exact Nat.min_le_left d m
  simp only [popField, walkField, hydFam_stable store d (effectiveDepth d maxDepth) heff]

/-- Successful fetch: the hop hydrates with the fetched document's fields
populated at remaining depth `b` (one unit consumed by the hop). -/
theorem hydrate_found (store : Store) (b : Nat) (relationTo : String) (id : Nat)
    (doc : FieldList) (h : store relationTo id = .found doc) :
    hydrate store (b + 1) relationTo id = (do
      let doc' ← popFields store b doc
      .ok (.hydrated doc')) := by
  rw [hydrate_succ, h]

/-- A not-found fetch degrades the reference to id-only. -/
theorem hydrate_notFound (store : Store) (b : Nat) (relationTo : String) (id : Nat)
    (h : store relationTo id = .notFound) :
    hydrate store (b + 1) relationTo id = .ok .idOnly := by
  rw [hydrate_succ, h]

/-- An access-denied fetch degrades the reference to id-only. -/
theorem hydrate_accessDenied (store : Store) (b : Nat) (relationTo : String) (id : Nat)
    (h : store relationTo id = .accessDenied) :
    hydrate store (b + 1) relationTo id = .ok .idOnly := by
  rw [hydrate_succ, h]

/-- A store-level I/O failure is fatal. -/
theorem hydrate_ioError (store : Store) (b : Nat) (relationTo : String) (id : Nat)
    (h : store relationTo id = .ioError) :
    hydrate store (b + 1) relationTo id = .error .ioError := by
  rw [hydrate_succ, h]

/-! ## Stripping (the depth-0 normal form)

`stripNode` is the pure transform that sets every reference `value` slot,
anywhere in a tree, to the bare id.  It is used to characterise population
at depth 0 (spec sections 3 and 8: "re-running population with depth 0
always collapses `value` back to the bare id regardless of prior
hydration"). -/

mutual

/-- Set every reference value slot in a node to the bare id. -/
def stripNode : LNode → LNode
  | .text s => .text s
  | .elem kind children => .elem kind (stripNodes children)
  | .rel relationTo id _value => .rel relationTo id .idOnly
  | .block blockType fields => .block blockType (stripFields fields)

/-- Set every reference value slot in a node list to the bare id. -/
def stripNodes : NodeList → NodeList
  | .nil => .nil
  | .cons hd tl => .cons (stripNode hd) (stripNodes tl)

/-- Set every reference value slot in a field map to the bare id. -/
def stripFields : FieldList → FieldList
  | .nil => .nil
  | .cons name val tl => .cons name (stripField val) (stripFields tl)

/-- Set every reference value slot in a field value to the bare id. -/
def stripField : FieldVal → FieldVal
  | .prim s => .prim s
  | .richText root => .richText (stripNode root)
  | .relation relationTo id maxDepth _value => .relation relationTo id maxDepth .idOnly

end

mutual

/-- Every reference value slot in the node is the bare id. -/
def nodeIdOnly : LNode → Prop
  | .text _ => True
  | .elem _ children => nodesIdOnly children
  | .rel _ _ value => value = .idOnly
  | .block _ fields => fieldsIdOnly fields

/-- Every reference value slot in the node list is the bare id. -/
def nodesIdOnly : NodeList → Prop
  | .nil => True
  | .cons hd tl => nodeIdOnly hd ∧ nodesIdOnly tl

/-- Every reference value slot in the field map is the bare id. -/
def fieldsIdOnly : FieldList → Prop
  | .nil => True
  | .cons _ val tl => fieldIdOnly val ∧ fieldsIdOnly tl

/-- Every reference value slot in the field value is the bare id. -/
def fieldIdOnly : FieldVal → Prop
  | .prim _ => True
  | .richText root => nodeIdOnly root
  | .relation _ _ _ value => value = .idOnly

end

/-! ## HTML Converter Registry

The following embeds
`packages/richtext-lexical/src/field/features/converters/html/field/index.ts`,
which is part of the provided sources.

An `HTMLConverter` in the source is `{ nodeTypes: string[], converter }`;
the converter function's identity is represented here by an opaque `tag`
label (the spec-modelled renderer below wraps children in `<tag>...</tag>`),
which is all the consolidation logic observes. -/

/-- One HTML converter: the node types it handles plus a label standing in
for the converter function's identity. -/
structure HTMLConverter where
  nodeTypes : List String
  tag : String
deriving DecidableEq, Repr

/-- The `converters` property of the `HTMLConverterFeature`'s props: either
a literal converter list or a composition function receiving the
accumulated default converters. -/
inductive HTMLConvertersProp where
  | lit (l : List HTMLConverter)
  | comp (f : List HTMLConverter → List HTMLConverter)

/-- The slice of a `SanitizedEditorConfig` that the HTML-converter field
code reads: whether `resolvedFeatureMap` has an `htmlConverter` entry (and
if so, its optional `props.converters`), and the feature-contributed
converters `editorConfig.features.converters.html`. -/
structure SanitizedEditorConfig where
  /-- `resolvedFeatureMap.get('htmlConverter')`: `none` when the feature is
  absent; `some p` when present with `props?.converters = p`. -/
  htmlConverterFeature : Option (Option HTMLConvertersProp)
  /-- `editorConfig.features.converters.html`. -/
  featureConverters : List HTMLConverter

/-- Modelled from the spec: the module-level `defaultHTMLConverters` array
(its defining file `converter/defaultConverters.ts` is not among the
provided sources); spec section 4.2 lists built-in defaults covering
paragraph, text run, line break, link, list/list-item, heading, quote,
relationship reference, upload reference and block pass-through. -/
def defaultHTMLConverters : List HTMLConverter :=
  [ { nodeTypes := ["paragraph"], tag := "p" },
    { nodeTypes := ["text"], tag := "" },
    { nodeTypes := ["linebreak"], tag := "br" },
    { nodeTypes := ["link"], tag := "a" },
    { nodeTypes := ["list"], tag := "ul" },
    { nodeTypes := ["listitem"], tag := "li" },
    { nodeTypes := ["heading"], tag := "h1" },
    { nodeTypes := ["quote"], tag := "blockquote" },
    { nodeTypes := ["relationship"], tag := "" },
    { nodeTypes := ["upload"], tag := "" },
    { nodeTypes := ["block"], tag := "" } ]

/-- The function `consolidateHTMLConverters` from
`features/converters/html/field/index.ts`.  The source aliases the
module-level `defaultHTMLConverters` array
(`const defaultConvertersWithConvertersFromFeatures = defaultHTMLConverters`)
and then pushes every feature converter onto that shared array; the mutable
module-level array is made explicit here as the `moduleState` argument, and
the function returns both the final converter list and the module array's
new contents. -/
def consolidateHTMLConverters (moduleState : List HTMLConverter)
    (editorConfig : SanitizedEditorConfig) :
    List HTMLConverter × List HTMLConverter :=
  let defaultConvertersWithConvertersFromFeatures :=
    moduleState ++ editorConfig.featureConverters
  let finalConverters :=
    match editorConfig.htmlConverterFeature with
    | some (some (.comp f)) => f defaultConvertersWithConvertersFromFeatures
    | some (some (.lit l)) => l
    | _ => defaultConvertersWithConvertersFromFeatures
  (finalConverters, defaultConvertersWithConvertersFromFeatures)

/-- Modelled from the spec: the effective converter for a node kind within
a consolidated list, under the override-by-kind reading of spec section 4.2
("a later module's entry for a kind overrides an earlier one"): the last
entry whose `nodeTypes` contains the kind wins.  The dispatching renderer
(`convertLexicalToHTML`) is not among the provided sources. -/
def effectiveConverter (converters : List HTMLConverter) (kind : String) :
    Option HTMLConverter :=
  (converters.filter (fun c => c.nodeTypes.contains kind)).getLast?

mutual

/-- Modelled from the spec: `convertLexicalToHTML` dispatch (spec section
4.2; the converter implementation is not among the provided sources): the
effective converter for the node's kind renders it (a `tag`-labelled
converter wraps the children's output in that tag); a node with no
registered converter renders as its converted children if it is a
container, or as an empty fragment if it is a leaf. -/
def renderNode (converters : List HTMLConverter) : LNode → String
  | .text s =>
      match effectiveConverter converters "text" with
      | some _ => s
      | none => ""
  | .elem kind children =>
      let inner := renderNodes converters children
      match effectiveConverter converters kind with
      | some c => if c.tag = "" then inner else "<" ++ c.tag ++ ">" ++ inner ++ "</" ++ c.tag ++ ">"
      | none => inner
  | .rel _ _ _ => ""
  | .block _ _ => ""

/-- Render a node list by concatenating each child's output in order. -/
def renderNodes (converters : List HTMLConverter) : NodeList → String
  | .nil => ""
  | .cons hd tl => renderNode converters hd ++ renderNodes converters tl

end

/-- Modelled from the spec: `convert(state, converterSet) -> string`
invokes the root's renderer (spec section 4.2). -/
def convertLexicalToHTML (converters : List HTMLConverter)
    (data : EditorState) : String :=
  renderNode converters data.root

/-! ## The `lexicalHTML` derived field

Embeds the `afterRead` hook built by `lexicalHTML` in
`features/converters/html/field/index.ts`.  A collection's field tree is
modelled by `Field`/`Fields`; the hook's `curField === field` reference
comparison (searching for the derived field itself) is modelled as "a text
field carrying the derived field's name". -/

mutual

/-- A collection field declaration, as the hook observes it: its name,
and, for rich-text fields, the editor adapter's `editorConfig` (absent
when the adapter or its config is missing). -/
inductive Field where
  | textF (name : String)
  | richTextF (name : String) (editorConfig : Option SanitizedEditorConfig)
  | groupF (name : String) (fields : Fields)

/-- A list of collection fields. -/
inductive Fields where
  | nil
  | cons (f : Field) (tl : Fields)

end

/-- The name of a field declaration. -/
def Field.name : Field → String
  | .textF n => n
  | .richTextF n _ => n
  | .groupF n _ => n

/-- The source expression `(lexicalField?.editor as LexicalRichTextAdapter)?.editorConfig`. -/
def Field.editorConfig : Field → Option SanitizedEditorConfig
  | .richTextF _ cfg => cfg
  | _ => none

mutual

/-- The hook helper `findFieldPathAndSiblingFields`: search the collection's
fields (recursing into entries that have both `fields` and `name`) for the
derived field itself, returning its path and its sibling field list, or
`none` when it is absent.  The `curField === field` identity test is
modelled as matching a `textF` with the derived field's name. -/
def findFieldPathAndSiblingFields (derivedName : String) (fields : Fields)
    (path : List String) : Option (List String × Fields) :=
  findInFields derivedName fields fields path

/-- Walk one sibling list; `all` is the whole list, kept as the
`siblingFields` result. -/
def findInFields (derivedName : String) (all rest : Fields)
    (path : List String) : Option (List String × Fields) :=
  match rest with
  | .nil => none
  | .cons curField tl =>
      match curField with
      | .textF n =>
          if n = derivedName then some (path ++ [n], all)
          else findInFields derivedName all tl path
      | .richTextF _ _ => findInFields derivedName all tl path
      | .groupF n inner =>
          match findInFields derivedName inner inner (path ++ [n]) with
          | some r => some r
          | none => findInFields derivedName all tl path

end

/-- Find the sibling field whose name is `lexicalFieldName`
(`siblingFields.find((field) => 'name' in field && field.name === lexicalFieldName)`). -/
def findSibling (lexicalFieldName : String) : Fields → Option Field
  | .nil => none
  | .cons f tl => if f.name = lexicalFieldName then some f else findSibling lexicalFieldName tl

/-- The distinguishable failures of the `afterRead` hook: the `TypeError`
from destructuring a `null` search result, and the three thrown `Error`s,
in source order. -/
inductive HookError where
  | destructureNull
  | lexicalFieldNotFound
  | noEditorConfig
  | noHTMLConverterFeature
deriving DecidableEq, Repr

/-- The stored sibling data the hook reads: a map from field name to the
optionally-present stored Editor State (`none` models a missing/falsy
`siblingData[lexicalFieldName]`). -/
def SiblingData : Type := String → Option EditorState

/-- The `afterRead` hook of the `lexicalHTML` field, statement by
statement; `moduleState` is the current contents of the module-level
`defaultHTMLConverters` array (threaded because `consolidateHTMLConverters`
appends to it), returned alongside the hook's result. -/
def afterReadHook (collectionFields : Fields) (derivedName lexicalFieldName : String)
    (siblingData : SiblingData) (moduleState : List HTMLConverter) :
    Except HookError String × List HTMLConverter :=
  match findFieldPathAndSiblingFields derivedName collectionFields [] with
  | none => (.error .destructureNull, moduleState)
  | some (_path, siblingFields) =>
      let lexicalField := findSibling lexicalFieldName siblingFields
      let lexicalFieldData := siblingData lexicalFieldName
      match lexicalFieldData with
      | none => (.ok "", moduleState)
      | some data =>
          match lexicalField with
          | none => (.error .lexicalFieldNotFound, moduleState)
          | some f =>
              match f.editorConfig with
              | none => (.error .noEditorConfig, moduleState)
              | some config =>
                  match config.htmlConverterFeature with
                  | none => (.error .noHTMLConverterFeature, moduleState)
                  | some _ =>
                      let r := consolidateHTMLConverters moduleState config
                      (.ok (convertLexicalToHTML r.1 data), r.2)

/-! ## Constructor-wise equations of the populate functions -/

theorem popNode_text (store : Store) (d : Nat) (s : String) :
    popNode store d (.text s) = .ok (.text s) := rfl

theorem popNode_elem (store : Store) (d : Nat) (kind : String) (children : NodeList) :
    popNode store d (.elem kind children) = (do
      let children' ← popNodes store d children
      .ok (.elem kind children')) := rfl

theorem popNode_block (store : Store) (d : Nat) (blockType : String) (fields : FieldList) :
    popNode store d (.block blockType fields) = (do
      let fields' ← popFields store d fields
      .ok (.block blockType fields')) := rfl

theorem popNodes_nil (store : Store) (d : Nat) : popNodes store d .nil = .ok .nil := rfl

theorem popNodes_cons (store : Store) (d : Nat) (hd : LNode) (tl : NodeList) :
    popNodes store d (.cons hd tl) = (do
      let hd' ← popNode store d hd
      let tl' ← popNodes store d tl
      .ok (.cons hd' tl')) := rfl

theorem popFields_nil (store : Store) (d : Nat) : popFields store d .nil = .ok .nil := rfl

theorem popFields_cons (store : Store) (d : Nat) (name : String) (val : FieldVal)
    (tl : FieldList) :
    popFields store d (.cons name val tl) = (do
      let val' ← popField store d val
      let tl' ← popFields store d tl
      .ok (.cons name val' tl')) := rfl

theorem popField_prim (store : Store) (d : Nat) (s : String) :
    popField store d (.prim s) = .ok (.prim s) := rfl

theorem popField_richText (store : Store) (d : Nat) (root : LNode) :
    popField store d (.richText root) = (do
      let root' ← popNode store d root
      .ok (.richText root')) := rfl

/-! ## Population at depth 0 -/

mutual

theorem walkNode_zero (h : Hyd) (hz : ∀ k relationTo id, h k relationTo id = .ok .idOnly) :
    (n : LNode) → walkNode h 0 n = .ok (stripNode n)
  | .text s => by simp [walkNode, stripNode]
  | .elem kind children => by
      simp [walkNode, stripNode, walkNodes_zero h hz children, Bind.bind, Except.bind]
  | .rel relationTo id value => by
      simp [walkNode, stripNode, hz, Bind.bind, Except.bind]
  | .block blockType fields => by
      simp [walkNode, stripNode, walkFields_zero h hz fields, Bind.bind, Except.bind]

theorem walkNodes_zero (h : Hyd) (hz : ∀ k relationTo id, h k relationTo id = .ok .idOnly) :
    (l : NodeList) → walkNodes h 0 l = .ok (stripNodes l)
  | .nil => by simp [walkNodes, stripNodes]
  | .cons hd tl => by
      simp [walkNodes, stripNodes, walkNode_zero h hz hd, walkNodes_zero h hz tl,
        Bind.bind, Except.bind]

theorem walkFields_zero (h : Hyd) (hz : ∀ k relationTo id, h k relationTo id = .ok .idOnly) :
    (fl : FieldList) → walkFields h 0 fl = .ok (stripFields fl)
  | .nil => by simp [walkFields, stripFields]
  | .cons name val tl => by
      simp [walkFields, stripFields, walkField_zero h hz val, walkFields_zero h hz tl,
        Bind.bind, Except.bind]

theorem walkField_zero (h : Hyd) (hz : ∀ k relationTo id, h k relationTo id = .ok .idOnly) :
    (v : FieldVal) → walkField h 0 v = .ok (stripField v)
  | .prim s => by simp [walkField, stripField]
  | .richText root => by
      simp [walkField, stripField, walkNode_zero h hz root, Bind.bind, Except.bind]
  | .relation relationTo id maxDepth value => by
      simp [walkField, stripField, hz, Bind.bind, Except.bind]

end

theorem popNode_zero (store : Store) (n : LNode) :
    popNode store 0 n = .ok (stripNode n) :=
  walkNode_zero (hydFam store 0) (fun _ _ _ => rfl) n

theorem popNodes_zero (store : Store) (l : NodeList) :
    popNodes store 0 l = .ok (stripNodes l) :=
  walkNodes_zero (hydFam store 0) (fun _ _ _ => rfl) l

theorem popFields_zero (store : Store) (fl : FieldList) :
    popFields store 0 fl = .ok (stripFields fl) :=
  walkFields_zero (hydFam store 0) (fun _ _ _ => rfl) fl

theorem popField_zero (store : Store) (v : FieldVal) :
    popField store 0 v = .ok (stripField v) :=
  walkField_zero (hydFam store 0) (fun _ _ _ => rfl) v

mutual

theorem stripNode_idOnly : (n : LNode) → nodeIdOnly (stripNode n)
  | .text s => by simp [stripNode, nodeIdOnly]
  | .elem kind children => by simp [stripNode, nodeIdOnly, stripNodes_idOnly children]
  | .rel relationTo id value => by simp [stripNode, nodeIdOnly]
  | .block blockType fields => by simp [stripNode, nodeIdOnly, stripFields_idOnly fields]

theorem stripNodes_idOnly : (l : NodeList) → nodesIdOnly (stripNodes l)
  | .nil => by simp [stripNodes, nodesIdOnly]
  | .cons hd tl => by
      simp [stripNodes, nodesIdOnly, stripNode_idOnly hd, stripNodes_idOnly tl]

theorem stripFields_idOnly : (fl : FieldList) → fieldsIdOnly (stripFields fl)
  | .nil => by simp [stripFields, fieldsIdOnly]
  | .cons name val tl => by
      simp [stripFields, fieldsIdOnly, stripField_idOnly val, stripFields_idOnly tl]

theorem stripField_idOnly : (v : FieldVal) → fieldIdOnly (stripField v)
  | .prim s => by simp [stripField, fieldIdOnly]
  | .richText root => by simp [stripField, fieldIdOnly, stripNode_idOnly root]
  | .relation relationTo id maxDepth value => by simp [stripField, fieldIdOnly]

end

/-- C2: populate at requestedDepth 0 resolves every reference node anywhere
in the tree (including references inside block field maps and nested
sub-editors) to an id-only value — the result is exactly the stripped
input, every reference value slot in it is the bare id, and in particular
any prior hydration in the input is discarded. -/
theorem claim_C2_depth_zero_strips (store : Store) (fieldMaxDepth : Option Nat)
    (state : EditorState) :
    populate store 0 fieldMaxDepth state
        = .ok { root := stripNode state.root, version := state.version }
      ∧ nodeIdOnly (stripNode state.root) := by
  constructor
  · have h0 : effectiveDepth 0 fieldMaxDepth = 0 := by
      cases fieldMaxDepth <;> simp [effectiveDepth]
    simp [populate, h0, popNode_zero store state.root, Bind.bind, Except.bind]
  · exact stripNode_idOnly state.root

/-! ## Depth accounting -/

/-- C1: during population, a cross-document hop decreases the remaining
depth budget by exactly one (a reference at remaining depth `d + 1` walks
the fetched document's fields at depth `d`), while traversal into a block's
field map and into a nested Editor State held in it decreases it by zero;
consequently, for a tree whose block field map holds a sub-editor
containing a reference, requestedDepth 1 suffices to hydrate that
reference, with the fetched document's rich-text fields populated at
remaining depth 0 (i.e. stripped). -/
theorem claim_C1_hop_costs_one_block_costs_zero (store : Store) (d : Nat)
    (relationTo : String) (id : Nat) (value : RefValue) (doc : FieldList)
    (blockType fieldName : String) (fields : FieldList) (root : LNode)
    (version : Nat)
    (hfetch : store relationTo id = .found doc) :
    (popNode store (d + 1) (.rel relationTo id value)
        = (do
            let doc' ← popFields store d doc
            .ok (.rel relationTo id (.hydrated doc'))))
      ∧ (popNode store d (.block blockType fields)
          = (do
              let fields' ← popFields store d fields
              .ok (.block blockType fields')))
      ∧ (popField store d (.richText root)
          = (do
              let root' ← popNode store d root
              .ok (.richText root')))
      ∧ (populate store 1 none
            { root := .block blockType
                (.cons fieldName (.richText (.rel relationTo id value)) .nil),
              version := version }
          = .ok
            { root := .block blockType
                (.cons fieldName
                  (.richText (.rel relationTo id (.hydrated (stripFields doc)))) .nil),
              version := version }) := by
  have hrel : ∀ d' v', popNode store (d' + 1) (.rel relationTo id v')
      = (do
          let doc' ← popFields store d' doc
          .ok (.rel relationTo id (.hydrated doc'))) := by
    intro d' v'
    rw [popNode_rel, hydrate_succ, hfetch]
    cases hdoc : popFields store d' doc <;> simp [hdoc, Bind.bind, Except.bind]
  refine ⟨hrel d value, popNode_block store d blockType fields,
    popField_richText store d root, ?_⟩
  have h1 : popNode store 1 (.rel relationTo id value)
      = .ok (.rel relationTo id (.hydrated (stripFields doc))) := by
    rw [hrel 0 value, popFields_zero store doc]
    rfl
  have heff : effectiveDepth 1 none = 1 := rfl
  simp only [populate, heff, popNode_block, popFields_cons, popField_richText,
    popFields_nil, h1, Bind.bind, Except.bind]

/-- Closed witness for `claim_C1_hop_costs_one_block_costs_zero`: a
concrete one-document store satisfying the fetch hypothesis. -/
def witnessStoreC1 : Store := fun relationTo id =>
  if relationTo = "posts" ∧ id = 7 then
    .found (.cons "title" (.prim "Y") .nil)
  else
    .notFound

theorem claim_C1_witness :
    witnessStoreC1 "posts" 7 = .found (.cons "title" (.prim "Y") .nil)
      ∧ populate witnessStoreC1 1 none
          { root := .block "richTextBlock"
              (.cons "richText" (.richText (.rel "posts" 7 .idOnly)) .nil),
            version := 1 }
        = .ok
          { root := .block "richTextBlock"
              (.cons "richText"
                (.richText (.rel "posts" 7
                  (.hydrated (stripFields (.cons "title" (.prim "Y") .nil))))) .nil),
            version := 1 } := by
  have h : witnessStoreC1 "posts" 7 = .found (.cons "title" (.prim "Y") .nil) := by
    rfl
  exact ⟨h, (claim_C1_hop_costs_one_block_costs_zero witnessStoreC1 0 "posts" 7 .idOnly
    (.cons "title" (.prim "Y") .nil) "richTextBlock" "richText" .nil (.text "") 1 h).2.2.2⟩

/-! ## Field-level maxDepth cap -/

/-- C3: the effective depth at the root of a populate call is
`min(requestedDepth, fieldMaxDepth)`; a relation field declaring
`maxDepth = m` behaves, for any requested depth `D ≥ m`, exactly as at
depth `m` (raising the requested depth cannot exceed the cap); and a field
map is populated field by field, each field's result depending only on its
own value, so one field's cap does not reduce the effective depth of any
other field in the same read. -/
theorem claim_C3_effective_depth_min (store : Store) (D m : Nat)
    (state : EditorState) (relationTo : String) (id : Nat) (value : RefValue)
    (d : Nat) (n1 n2 : String) (v1 v2 w1 : FieldVal)
    (hD : m ≤ D) (hv1 : popField store d v1 = .ok w1) :
    (populate store D (some m) state = populate store (min D m) none state)
      ∧ (popField store D (.relation relationTo id (some m) value)
          = popField store m (.relation relationTo id (some m) value))
      ∧ (popFields store d (.cons n1 v1 (.cons n2 v2 .nil))
          = (do
              let w2 ← popField store d v2
              .ok (.cons n1 w1 (.cons n2 w2 .nil)))) := by
  refine ⟨?_, ?_, ?_⟩
  · simp [populate, effectiveDepth]
  · have hDm : effectiveDepth D (some m) = m := by simp [effectiveDepth]; omega
    have hmm : effectiveDepth m (some m) = m := by simp [effectiveDepth]
    rw [popField_relation, popField_relation, hDm, hmm]
  · cases h2 : popField store d v2 <;>
      simp [popFields_cons, popFields_nil, hv1, h2, Bind.bind, Except.bind]

theorem claim_C3_witness :
    (1 : Nat) ≤ 2
      ∧ popField witnessStoreC1 0 (.prim "a") = .ok (.prim "a")
      ∧ (popField witnessStoreC1 2 (.relation "posts" 7 (some 1) .idOnly)
          = popField witnessStoreC1 1 (.relation "posts" 7 (some 1) .idOnly)) := by
  have h1 : (1 : Nat) ≤ 2 := by omega
  have h2 : popField witnessStoreC1 0 (.prim "a") = .ok (.prim "a") := rfl
  exact ⟨h1, h2, (claim_C3_effective_depth_min witnessStoreC1 2 1
    { root := .text "", version := 1 } "posts" 7 .idOnly 0 "a" "b" (.prim "a")
    (.prim "b") (.prim "a") h1 h2).2.1⟩

/-! ## The block-with-sub-editor scenario (C4)

Concrete instance of the spec's "richTextBlock" scenario: a block whose
`fields.richText` sub-tree contains a reference to document `Y` (in
`"posts"`), where `Y` itself holds a rich-text field containing a
reference to document `Z` (in `"texts"`). -/

/-- Document `Z`: flat fields only. -/
def c4docZ : FieldList := .cons "text" (.prim "Z") .nil

/-- Document `Y`: a flat field plus a rich-text field referencing `Z`. -/
def c4docY : FieldList :=
  .cons "title" (.prim "Y")
    (.cons "content" (.richText (.rel "texts" 9 .idOnly)) .nil)

/-- The scenario's store: `posts/7 ↦ Y`, `texts/9 ↦ Z`. -/
def c4store : Store := fun relationTo id =>
  if relationTo = "posts" ∧ id = 7 then .found c4docY
  else if relationTo = "texts" ∧ id = 9 then .found c4docZ
  else .notFound

/-- The input tree: a `richTextBlock` block node whose field map holds a
sub-editor containing a reference to `Y`. -/
def c4tree : LNode :=
  .block "richTextBlock"
    (.cons "richText" (.richText (.rel "posts" 7 .idOnly)) .nil)

/-- The tree after population at depth 1: the reference inside the block's
sub-editor is hydrated to `Y`'s fields, with `Y`'s own reference to `Z`
left id-only. -/
def c4treeAt1 : LNode :=
  .block "richTextBlock"
    (.cons "richText"
      (.richText (.rel "posts" 7
        (.hydrated
          (.cons "title" (.prim "Y")
            (.cons "content" (.richText (.rel "texts" 9 .idOnly)) .nil)))))
      .nil)

/-- The tree after population at depth 2: `Y`'s reference to `Z` is now
hydrated to `Z`'s flat fields. -/
def c4treeAt2 : LNode :=
  .block "richTextBlock"
    (.cons "richText"
      (.richText (.rel "posts" 7
        (.hydrated
          (.cons "title" (.prim "Y")
            (.cons "content"
              (.richText (.rel "texts" 9 (.hydrated (.cons "text" (.prim "Z") .nil))))
              .nil)))))
      .nil)

/-- C4 counterexample: contrary to the claim, with outer requestedDepth 1
the reference inside the block's sub-editor does NOT remain id-only — the
populated tree hydrates it to `Y`'s fields, and differs from the id-only
tree the claim predicts. -/
theorem claim_C4_counterexample :
    popNode c4store 1 c4tree = .ok c4treeAt1
      ∧ c4treeAt1 ≠ stripNode c4tree := by
  constructor
  · rfl
  · simp [c4tree, c4treeAt1, stripNode, stripFields, stripField]

/-- C4 as amended: traversal into the block's sub-editor consumes no
depth, so with outer requestedDepth 0 the reference inside the block
remains id-only, with requestedDepth 1 it hydrates to `Y`'s flat fields
only (the reference inside `Y` stays id-only), and with requestedDepth 2
the reference inside `Y` hydrates to `Z`'s flat fields. -/
theorem claim_C4_amended_block_scenario :
    popNode c4store 0 c4tree = .ok (stripNode c4tree)
      ∧ popNode c4store 1 c4tree = .ok c4treeAt1
      ∧ popNode c4store 2 c4tree = .ok c4treeAt2 := by
  exact ⟨popNode_zero c4store c4tree, rfl, rfl⟩

/-! ## Idempotence of the walk

At a fixed remaining depth and oracle, re-walking an already-walked tree
reproduces it exactly: every reference slot is rebuilt from the oracle
alone (the old value is discarded), and all other structure is preserved. -/

mutual

theorem walkNode_idem (h : Hyd) (d : Nat) : (n n' : LNode) →
    walkNode h d n = .ok n' → walkNode h d n' = .ok n'
  | .text s, n', h1 => by
      simp only [walkNode] at h1 ⊢
      simp at h1
      subst h1
      simp [walkNode]
  | .elem kind children, n', h1 => by
      simp only [walkNode, Bind.bind, Except.bind] at h1
      cases hcs : walkNodes h d children with
      | error e => rw [hcs] at h1; simp at h1
      | ok cs' =>
          rw [hcs] at h1
          simp at h1
          subst h1
          simp [walkNode, walkNodes_idem h d children cs' hcs, Bind.bind, Except.bind]
  | .rel relationTo id value, n', h1 => by
      simp only [walkNode, Bind.bind, Except.bind] at h1
      cases hv : h d relationTo id with
      | error e => rw [hv] at h1; simp at h1
      | ok v' =>
          rw [hv] at h1
          simp at h1
          subst h1
          simp [walkNode, hv, Bind.bind, Except.bind]
  | .block blockType fields, n', h1 => by
      simp only [walkNode, Bind.bind, Except.bind] at h1
      cases hfs : walkFields h d fields with
      | error e => rw [hfs] at h1; simp at h1
      | ok fs' =>
          rw [hfs] at h1
          simp at h1
          subst h1
          simp [walkNode, walkFields_idem h d fields fs' hfs, Bind.bind, Except.bind]

theorem walkNodes_idem (h : Hyd) (d : Nat) : (l l' : NodeList) →
    walkNodes h d l = .ok l' → walkNodes h d l' = .ok l'
  | .nil, l', h1 => by
      simp only [walkNodes] at h1
      simp at h1
      subst h1
      simp [walkNodes]
  | .cons hd tl, l', h1 => by
      simp only [walkNodes, Bind.bind, Except.bind] at h1
      cases hhd : walkNode h d hd with
      | error e => rw [hhd] at h1; simp at h1
      | ok hd' =>
          rw [hhd] at h1
          cases htl : walkNodes h d tl with
          | error e => rw [htl] at h1; simp at h1
          | ok tl' =>
              rw [htl] at h1
              simp at h1
              subst h1
              simp [walkNodes, walkNode_idem h d hd hd' hhd,
                walkNodes_idem h d tl tl' htl, Bind.bind, Except.bind]

theorem walkFields_idem (h : Hyd) (d : Nat) : (fl fl' : FieldList) →
    walkFields h d fl = .ok fl' → walkFields h d fl' = .ok fl'
  | .nil, fl', h1 => by
      simp only [walkFields] at h1
      simp at h1
      subst h1
      simp [walkFields]
  | .cons name val tl, fl', h1 => by
      simp only [walkFields, Bind.bind, Except.bind] at h1
      cases hval : walkField h d val with
      | error e => rw [hval] at h1; simp at h1
      | ok val' =>
          rw [hval] at h1
          cases htl : walkFields h d tl with
          | error e => rw [htl] at h1; simp at h1
          | ok tl' =>
              rw [htl] at h1
              simp at h1
              subst h1
              simp [walkFields, walkField_idem h d val val' hval,
                walkFields_idem h d tl tl' htl, Bind.bind, Except.bind]

theorem walkField_idem (h : Hyd) (d : Nat) : (v v' : FieldVal) →
    walkField h d v = .ok v' → walkField h d v' = .ok v'
  | .prim s, v', h1 => by
      simp only [walkField] at h1
      simp at h1
      subst h1
      simp [walkField]
  | .richText root, v', h1 => by
      simp only [walkField, Bind.bind, Except.bind] at h1
      cases hr : walkNode h d root with
      | error e => rw [hr] at h1; simp at h1
      | ok root' =>
          rw [hr] at h1
          simp at h1
          subst h1
          simp [walkField, walkNode_idem h d root root' hr, Bind.bind, Except.bind]
  | .relation relationTo id maxDepth value, v', h1 => by
      simp only [walkField, Bind.bind, Except.bind] at h1
      cases hv : h (effectiveDepth d maxDepth) relationTo id with
      | error e => rw [hv] at h1; simp at h1
      | ok w =>
          rw [hv] at h1
          simp at h1
          subst h1
          simp [walkField, hv, Bind.bind, Except.bind]

end

/-- C8: populate is idempotent over an unchanged store: if
`populate store D cap s = ok s'` then populating `s'` again with the same
requested depth and cap yields `s'` itself. -/
theorem claim_C8_populate_idempotent (store : Store) (requestedDepth : Nat)
    (fieldMaxDepth : Option Nat) (s s' : EditorState)
    (h : populate store requestedDepth fieldMaxDepth s = .ok s') :
    populate store requestedDepth fieldMaxDepth s' = .ok s' := by
  simp only [populate, Bind.bind, Except.bind] at h ⊢
  cases hr : popNode store (effectiveDepth requestedDepth fieldMaxDepth) s.root with
  | error e => rw [hr] at h; simp at h
  | ok r =>
      rw [hr] at h
      simp at h
      subst h
      have h2 : popNode store (effectiveDepth requestedDepth fieldMaxDepth) r = .ok r :=
        walkNode_idem (hydFam store (effectiveDepth requestedDepth fieldMaxDepth))
          (effectiveDepth requestedDepth fieldMaxDepth) s.root r hr
      rw [h2]

/-- Store and state for the C8 witness. -/
def c8store : Store := fun relationTo id =>
  if relationTo = "pages" ∧ id = 3 then .found (.cons "name" (.prim "p") .nil)
  else .notFound

theorem claim_C8_witness :
    populate c8store 1 none { root := .rel "pages" 3 .idOnly, version := 1 }
        = .ok { root := .rel "pages" 3 (.hydrated (.cons "name" (.prim "p") .nil)),
                version := 1 }
      ∧ populate c8store 1 none
          { root := .rel "pages" 3 (.hydrated (.cons "name" (.prim "p") .nil)),
            version := 1 }
        = .ok { root := .rel "pages" 3 (.hydrated (.cons "name" (.prim "p") .nil)),
                version := 1 } :=
  ⟨rfl, claim_C8_populate_idempotent c8store 1 none
    { root := .rel "pages" 3 .idOnly, version := 1 }
    { root := .rel "pages" 3 (.hydrated (.cons "name" (.prim "p") .nil)), version := 1 }
    rfl⟩

/-! ## Failure policy (C7) -/

/-- C7: during population, a fetch returning not-found or access-denied
degrades only that reference to an id-only value and the walk continues
over the rest of the tree with no error surfaced to the caller, whereas a
store-level I/O failure makes the whole populate call fail with no partial
tree returned. -/
theorem claim_C7_failure_policy (store : Store) (cA cB cC cD : String)
    (iA iB iC iD : Nat) (vA vB vC vD : RefValue) (docA : FieldList)
    (hA : store cA iA = .found docA) (hB : store cB iB = .notFound)
    (hC : store cC iC = .accessDenied) (hD : store cD iD = .ioError) :
    (popNodes store 1
        (.cons (.rel cA iA vA) (.cons (.rel cB iB vB) (.cons (.rel cC iC vC) .nil)))
      = .ok (.cons (.rel cA iA (.hydrated (stripFields docA)))
          (.cons (.rel cB iB .idOnly) (.cons (.rel cC iC .idOnly) .nil))))
      ∧ (popNode store 1 (.rel cD iD vD) = .error .ioError)
      ∧ (popNodes store 1 (.cons (.rel cA iA vA) (.cons (.rel cD iD vD) .nil))
          = .error .ioError) := by
  have hydA : hydrate store 1 cA iA = .ok (.hydrated (stripFields docA)) := by
    rw [hydrate_found store 0 cA iA docA hA, popFields_zero]
    rfl
  have hydB : hydrate store 1 cB iB = .ok .idOnly := hydrate_notFound store 0 cB iB hB
  have hydC : hydrate store 1 cC iC = .ok .idOnly := hydrate_accessDenied store 0 cC iC hC
  have hydD : hydrate store 1 cD iD = .error .ioError := hydrate_ioError store 0 cD iD hD
  refine ⟨?_, ?_, ?_⟩
  · simp only [popNodes_cons, popNodes_nil, popNode_rel, hydA, hydB, hydC,
      Bind.bind, Except.bind]
  · simp only [popNode_rel, hydD, Bind.bind, Except.bind]
  · simp only [popNodes_cons, popNodes_nil, popNode_rel, hydA, hydD,
      Bind.bind, Except.bind]

/-- Store for the C7 witness: one fetchable document, one missing, one
access-denied, one failing with an I/O error. -/
def c7store : Store := fun relationTo _id =>
  if relationTo = "a" then .found (.cons "t" (.prim "x") .nil)
  else if relationTo = "b" then .notFound
  else if relationTo = "c" then .accessDenied
  else .ioError

theorem claim_C7_witness :
    c7store "a" 1 = .found (.cons "t" (.prim "x") .nil)
      ∧ c7store "b" 2 = .notFound
      ∧ c7store "c" 3 = .accessDenied
      ∧ c7store "d" 4 = .ioError
      ∧ (popNodes c7store 1
          (.cons (.rel "a" 1 .idOnly)
            (.cons (.rel "b" 2 .idOnly) (.cons (.rel "c" 3 .idOnly) .nil)))
        = .ok (.cons (.rel "a" 1 (.hydrated (stripFields (.cons "t" (.prim "x") .nil))))
            (.cons (.rel "b" 2 .idOnly) (.cons (.rel "c" 3 .idOnly) .nil))))
      ∧ (popNode c7store 1 (.rel "d" 4 .idOnly) = .error .ioError)
      ∧ (popNodes c7store 1 (.cons (.rel "a" 1 .idOnly) (.cons (.rel "d" 4 .idOnly) .nil))
          = .error .ioError) := by
  have h := claim_C7_failure_policy c7store "a" "b" "c" "d" 1 2 3 4
    .idOnly .idOnly .idOnly .idOnly (.cons "t" (.prim "x") .nil) rfl rfl rfl rfl
  exact ⟨rfl, rfl, rfl, rfl, h.1, h.2.1, h.2.2⟩

/-! ## Converter consolidation (C6, C9) -/

/-- C6: `consolidateHTMLConverters` builds the effective converter set in
order — built-in defaults first, then the feature-contributed converters
(so that, under the last-entry-wins dispatch of spec section 4.2, a later
source's entry for a kind overrides an earlier one's), and field-level
configuration last: a literal list fully replaces the accumulated set, a
composition function receives the accumulated list (defaults plus feature
converters) and its return value is the final set, and with no field-level
configuration the result is defaults plus feature converters. -/
theorem claim_C6_consolidation_order (cfg : SanitizedEditorConfig)
    (l : List HTMLConverter) (f : List HTMLConverter → List HTMLConverter)
    (kind : String) (c : HTMLConverter)
    (hlast : effectiveConverter cfg.featureConverters kind = some c) :
    (cfg.htmlConverterFeature = none →
        (consolidateHTMLConverters defaultHTMLConverters cfg).1
          = defaultHTMLConverters ++ cfg.featureConverters)
      ∧ (cfg.htmlConverterFeature = some none →
        (consolidateHTMLConverters defaultHTMLConverters cfg).1
          = defaultHTMLConverters ++ cfg.featureConverters)
      ∧ (cfg.htmlConverterFeature = some (some (.lit l)) →
        (consolidateHTMLConverters defaultHTMLConverters cfg).1 = l)
      ∧ (cfg.htmlConverterFeature = some (some (.comp f)) →
        (consolidateHTMLConverters defaultHTMLConverters cfg).1
          = f (defaultHTMLConverters ++ cfg.featureConverters))
      ∧ effectiveConverter (defaultHTMLConverters ++ cfg.featureConverters) kind
          = some c := by
  refine ⟨?_, ?_, ?_, ?_, ?_⟩
  · intro h; simp [consolidateHTMLConverters, h]
  · intro h; simp [consolidateHTMLConverters, h]
  · intro h; simp [consolidateHTMLConverters, h]
  · intro h; simp [consolidateHTMLConverters, h]
  · unfold effectiveConverter at hlast ⊢
    rw [List.filter_append]
    have hne : cfg.featureConverters.filter (fun c => c.nodeTypes.contains kind) ≠ [] := by
      intro h0
      rw [h0] at hlast
      simp at hlast
    rw [List.getLast?_append_of_ne_nil _ hne]
    exact hlast

/-- A feature-contributed converter for the C6/C9 witnesses: overrides the
default paragraph converter. -/
def witnessFeatureConverter : HTMLConverter :=
  { nodeTypes := ["paragraph"], tag := "div" }

/-- An editor config whose feature modules contribute one converter and
whose `htmlConverter` feature is enabled without a field-level
`converters` setting. -/
def witnessEditorConfig : SanitizedEditorConfig :=
  { htmlConverterFeature := some none,
    featureConverters := [witnessFeatureConverter] }

theorem claim_C6_witness :
    effectiveConverter witnessEditorConfig.featureConverters "paragraph"
        = some witnessFeatureConverter
      ∧ effectiveConverter
          (defaultHTMLConverters ++ witnessEditorConfig.featureConverters) "paragraph"
        = some witnessFeatureConverter :=
  ⟨rfl,
    (claim_C6_consolidation_order witnessEditorConfig [] id "paragraph"
      witnessFeatureConverter rfl).2.2.2.2⟩

/-- A field-level literal converter for the C9 counterexample. -/
def c9literalConverter : HTMLConverter :=
  { nodeTypes := ["paragraph"], tag := "span" }

/-- An editor config with one feature converter AND a field-level literal
`converters` list: the branch of `index.ts` line 41 where the literal
(being truthy) fully replaces the accumulated set. -/
def c9litConfig : SanitizedEditorConfig :=
  { htmlConverterFeature := some (some (.lit [c9literalConverter])),
    featureConverters := [witnessFeatureConverter] }

/-- C9 counterexample: the claim quantifies over every editor config with
at least one feature converter, but for a config whose `htmlConverter`
feature carries a field-level literal `converters` array, the source
returns that literal (it is truthy), so a second call returns a list in
which the feature converter does not occur twice — it does not occur at
all, and the second call's returned list equals the first call's. -/
theorem claim_C9_counterexample :
    c9litConfig.featureConverters = [witnessFeatureConverter]
      ∧ (consolidateHTMLConverters
            (consolidateHTMLConverters defaultHTMLConverters c9litConfig).2
            c9litConfig).1
          = [c9literalConverter]
      ∧ ((consolidateHTMLConverters
            (consolidateHTMLConverters defaultHTMLConverters c9litConfig).2
            c9litConfig).1).count witnessFeatureConverter = 0
      ∧ (consolidateHTMLConverters
            (consolidateHTMLConverters defaultHTMLConverters c9litConfig).2
            c9litConfig).1
          = (consolidateHTMLConverters defaultHTMLConverters c9litConfig).1 := by
  refine ⟨rfl, rfl, ?_, rfl⟩
  decide

/-- C9 as amended: `consolidateHTMLConverters` is not pure: the local list
it builds aliases the module-level `defaultHTMLConverters` array and each
call appends the editor config's feature converters to that shared array,
so the accumulation persists into any later call in the process, for the
same or any other field, whatever the field-level configuration; and for a
config with at least one feature converter and no field-level `converters`
setting (`htmlConverter` feature absent, or present without converters
props), a second call returns a list in which the feature converters occur
twice — in particular the second call's result differs from the first
call's, so the function is not idempotent there. -/
theorem claim_C9_consolidate_mutates_module_state
    (ms : List HTMLConverter) (cfg cfg2 : SanitizedEditorConfig)
    (c : HTMLConverter)
    (hne : cfg.featureConverters ≠ [])
    (hnoProps : cfg.htmlConverterFeature = none
      ∨ cfg.htmlConverterFeature = some none)
    (hc : c ∈ cfg.featureConverters) :
    ((consolidateHTMLConverters ms cfg).2 = ms ++ cfg.featureConverters)
      ∧ ((consolidateHTMLConverters
            (consolidateHTMLConverters defaultHTMLConverters cfg).2 cfg2).2
          = defaultHTMLConverters ++ cfg.featureConverters ++ cfg2.featureConverters)
      ∧ ((consolidateHTMLConverters
            (consolidateHTMLConverters defaultHTMLConverters cfg).2 cfg).1
          = defaultHTMLConverters ++ cfg.featureConverters ++ cfg.featureConverters)
      ∧ (2 ≤ ((consolidateHTMLConverters
            (consolidateHTMLConverters defaultHTMLConverters cfg).2 cfg).1).count c)
      ∧ ((consolidateHTMLConverters
            (consolidateHTMLConverters defaultHTMLConverters cfg).2 cfg).1
          ≠ (consolidateHTMLConverters defaultHTMLConverters cfg).1) := by
  have hsnd : ∀ ms' : List HTMLConverter,
      (consolidateHTMLConverters ms' cfg).2 = ms' ++ cfg.featureConverters := by
    intro ms'
    simp [consolidateHTMLConverters]
  have hfst : ∀ ms' : List HTMLConverter,
      (consolidateHTMLConverters ms' cfg).1 = ms' ++ cfg.featureConverters := by
    intro ms'
    rcases hnoProps with h | h <;> simp [consolidateHTMLConverters, h]
  have hcount : 1 ≤ cfg.featureConverters.count c := List.count_pos_iff.mpr hc
  refine ⟨hsnd ms, ?_, ?_, ?_, ?_⟩
  · rw [hsnd defaultHTMLConverters]
    simp [consolidateHTMLConverters]
  · rw [hsnd defaultHTMLConverters, hfst]
  · rw [hsnd defaultHTMLConverters, hfst]
    simp only [List.count_append]
    omega
  · rw [hsnd defaultHTMLConverters, hfst, hfst]
    intro h0
    have hlen := congrArg List.length h0
    simp [List.length_append] at hlen
    exact hne hlen

theorem claim_C9_witness :
    witnessEditorConfig.featureConverters ≠ []
      ∧ witnessEditorConfig.htmlConverterFeature = some none
      ∧ witnessFeatureConverter ∈ witnessEditorConfig.featureConverters
      ∧ 2 ≤ ((consolidateHTMLConverters
            (consolidateHTMLConverters defaultHTMLConverters witnessEditorConfig).2
            witnessEditorConfig).1).count witnessFeatureConverter := by
  have h1 : witnessEditorConfig.featureConverters ≠ [] := by
    simp [witnessEditorConfig]
  have h2 : witnessEditorConfig.htmlConverterFeature = some none := rfl
  have h3 : witnessFeatureConverter ∈ witnessEditorConfig.featureConverters := by
    simp [witnessEditorConfig]
  exact ⟨h1, h2, h3,
    (claim_C9_consolidate_mutates_module_state defaultHTMLConverters
      witnessEditorConfig witnessEditorConfig witnessFeatureConverter
      h1 (Or.inr h2) h3).2.2.2.1⟩

/-! ## The `lexicalHTML` derived field (C5, C10) -/

/-- Editor config used in the C5 scenario: `htmlConverter` feature enabled,
no feature-contributed converters, no field-level `converters` setting. -/
def c5cfg : SanitizedEditorConfig :=
  { htmlConverterFeature := some none, featureConverters := [] }

/-- A collection with the derived `html` text field and its sibling
rich-text field `lex`, fully capable of HTML conversion. -/
def c5fields : Fields :=
  .cons (.textF "html") (.cons (.richTextF "lex" (some c5cfg)) .nil)

/-- Sibling data with no stored value for any field. -/
def c5noData : SiblingData := fun _ => none

/-- C5 counterexample: the claim says the read fails with a descriptive
error whenever the sibling field has no stored value; in the code, with
the sibling field present and fully conversion-capable but no stored
value, the hook returns the empty string successfully instead of
failing. -/
theorem claim_C5_counterexample :
    afterReadHook c5fields "html" "lex" c5noData defaultHTMLConverters
      = (.ok "", defaultHTMLConverters) := rfl

/-- C5 as amended: when the sibling field's stored value is absent the
read returns the empty string without error; when a stored value is
present, the read fails with a descriptive error if the sibling field is
absent from the sibling list, or its configuration has no editor config,
or no `htmlConverter` feature; and when stored value, sibling, editor
config and feature are all present, it returns the converted HTML of the
sibling's stored tree under the consolidated converter set. -/
theorem claim_C5_amended_derived_field_read (cf : Fields)
    (dn ln : String) (sd : SiblingData) (ms : List HTMLConverter)
    (path : List String) (sib : Fields)
    (hfind : findFieldPathAndSiblingFields dn cf [] = some (path, sib)) :
    (sd ln = none → afterReadHook cf dn ln sd ms = (.ok "", ms))
      ∧ (∀ data, sd ln = some data → findSibling ln sib = none →
          afterReadHook cf dn ln sd ms = (.error .lexicalFieldNotFound, ms))
      ∧ (∀ data f, sd ln = some data → findSibling ln sib = some f →
          f.editorConfig = none →
          afterReadHook cf dn ln sd ms = (.error .noEditorConfig, ms))
      ∧ (∀ data f cfg, sd ln = some data → findSibling ln sib = some f →
          f.editorConfig = some cfg → cfg.htmlConverterFeature = none →
          afterReadHook cf dn ln sd ms = (.error .noHTMLConverterFeature, ms))
      ∧ (∀ data f cfg p, sd ln = some data → findSibling ln sib = some f →
          f.editorConfig = some cfg → cfg.htmlConverterFeature = some p →
          afterReadHook cf dn ln sd ms
            = (.ok (convertLexicalToHTML (consolidateHTMLConverters ms cfg).1 data),
               (consolidateHTMLConverters ms cfg).2)) := by
  refine ⟨?_, ?_, ?_, ?_, ?_⟩
  · intro hdata
    simp [afterReadHook, hfind, hdata]
  · intro data hdata hsib
    simp [afterReadHook, hfind, hdata, hsib]
  · intro data f hdata hsib hcfg
    simp [afterReadHook, hfind, hdata, hsib, hcfg]
  · intro data f cfg hdata hsib hcfg hfeat
    simp [afterReadHook, hfind, hdata, hsib, hcfg, hfeat]
  · intro data f cfg p hdata hsib hcfg hfeat
    simp [afterReadHook, hfind, hdata, hsib, hcfg, hfeat]

/-- The stored Editor State used by the C5 witness:
a paragraph holding the text run "simple". -/
def c5state : EditorState :=
  { root := .elem "root"
      (.cons (.elem "paragraph" (.cons (.text "simple") .nil)) .nil),
    version := 1 }

/-- Sibling data holding a stored Editor State for the `lex` field. -/
def c5someData : SiblingData := fun name =>
  if name = "lex" then some c5state else none

theorem claim_C5_witness :
    findFieldPathAndSiblingFields "html" c5fields [] = some (["html"], c5fields)
      ∧ c5someData "lex" = some c5state
      ∧ findSibling "lex" c5fields = some (.richTextF "lex" (some c5cfg))
      ∧ Field.editorConfig (.richTextF "lex" (some c5cfg)) = some c5cfg
      ∧ c5cfg.htmlConverterFeature = some none
      ∧ afterReadHook c5fields "html" "lex" c5someData defaultHTMLConverters
          = (.ok (convertLexicalToHTML
                (consolidateHTMLConverters defaultHTMLConverters c5cfg).1 c5state),
             (consolidateHTMLConverters defaultHTMLConverters c5cfg).2) :=
  ⟨rfl, rfl, rfl, rfl, rfl,
    (claim_C5_amended_derived_field_read c5fields "html" "lex" c5someData
        defaultHTMLConverters ["html"] c5fields rfl).2.2.2.2
      c5state (.richTextF "lex" (some c5cfg)) c5cfg none rfl rfl rfl rfl⟩

/-- C10: in the `afterRead` hook the missing-data check precedes every
configuration check: once the derived field itself is located, a read with
no stored sibling value returns the empty string without raising — no
matter whether the referenced sibling field exists or what its
configuration is — and any error result implies a stored value was
present. -/
theorem claim_C10_missing_data_check_first (cf : Fields)
    (dn ln : String) (sd : SiblingData) (ms : List HTMLConverter)
    (path : List String) (sib : Fields)
    (hfind : findFieldPathAndSiblingFields dn cf [] = some (path, sib)) :
    (sd ln = none → afterReadHook cf dn ln sd ms = (.ok "", ms))
      ∧ (∀ e : HookError, (afterReadHook cf dn ln sd ms).1 = .error e →
          sd ln ≠ none) := by
  constructor
  · intro hdata
    simp [afterReadHook, hfind, hdata]
  · intro e herr hdata
    rw [show afterReadHook cf dn ln sd ms = (.ok "", ms) by
      simp [afterReadHook, hfind, hdata]] at herr
    simp at herr

/-- A collection containing only the derived field itself: the referenced
sibling rich-text field does not exist at all. -/
def c10fields : Fields := .cons (.textF "html") .nil

theorem claim_C10_witness :
    findFieldPathAndSiblingFields "html" c10fields [] = some (["html"], c10fields)
      ∧ c5noData "lex" = none
      ∧ findSibling "lex" c10fields = none
      ∧ afterReadHook c10fields "html" "lex" c5noData defaultHTMLConverters
          = (.ok "", defaultHTMLConverters) :=
  ⟨rfl, rfl, rfl,
    (claim_C10_missing_data_check_first c10fields "html" "lex" c5noData
        defaultHTMLConverters ["html"] c10fields rfl).1 rfl⟩

end Payload
